import Mathlib

/-!
Verification of the oneminreviews enrichment and normalization pipeline.

Strings are modeled as lists of characters (`Str`).  JavaScript numbers are
modeled as rationals.  Character case mapping is modeled on the ASCII range,
which is exact on every character that can survive the `[a-z0-9\s-]` filter
of the slug normalizer and on the cleaned captions (whose characters are all
ASCII after the `[^\w\s'-]` -> space rewrite).
-/

namespace OneMin

abbrev Str := List Char

def str (s : String) : Str := s.data

/-- ASCII uppercase letter test, as used by the `[A-Z]` character class. -/
def isUpperAZ (c : Char) : Bool := decide (65 ≤ c.toNat ∧ c.toNat ≤ 90)

/-- ASCII lowercase letter test, as used by the `[a-z]` character class. -/
def isLowerAZ (c : Char) : Bool := decide (97 ≤ c.toNat ∧ c.toNat ≤ 122)

/-- ASCII digit test, as used by the `[0-9]` character class. -/
def isDigit09 (c : Char) : Bool := decide (48 ≤ c.toNat ∧ c.toNat ≤ 57)

/-- Lowercasing of a single character (ASCII range). -/
def lcChar (c : Char) : Char := if isUpperAZ c then Char.ofNat (c.toNat + 32) else c

/-- Uppercasing of a single character (ASCII range). -/
def ucChar (c : Char) : Char := if isLowerAZ c then Char.ofNat (c.toNat - 32) else c

/-- The character set matched by the JavaScript regex class `\s`
(whitespace and line terminators). -/
def isSpaceJS (c : Char) : Bool :=
  decide (c.toNat = 32 ∨ c.toNat = 9 ∨ c.toNat = 10 ∨ c.toNat = 11 ∨ c.toNat = 12 ∨
    c.toNat = 13 ∨ c.toNat = 160 ∨ c.toNat = 5760 ∨
    (8192 ≤ c.toNat ∧ c.toNat ≤ 8202) ∨ c.toNat = 8232 ∨ c.toNat = 8233 ∨
    c.toNat = 8239 ∨ c.toNat = 8287 ∨ c.toNat = 12288 ∨ c.toNat = 65279)

/-- The character set matched by the JavaScript regex class `\w`:
`[A-Za-z0-9_]`. -/
def isWordChar (c : Char) : Bool :=
  isUpperAZ c || isLowerAZ c || isDigit09 c || decide (c = '_')

/-- Characters kept by `slugify`'s `.replace(/[^a-z0-9\s-]/g, '')` step
(applied after lowercasing). -/
def isSlugKept (c : Char) : Bool := isLowerAZ c || isDigit09 c || isSpaceJS c || decide (c = '-')

/-- Replace every maximal run of characters satisfying `p` by the single
character `r`, mirroring a global regex replace of `\s+` or `-+` by `-`.
The flag records whether the previous character was part of a run. -/
def collapseRunsAux (p : Char → Bool) (r : Char) : Bool → Str → Str
  | _, [] => []
  | inRun, c :: cs =>
    if p c then
      if inRun then collapseRunsAux p r true cs else r :: collapseRunsAux p r true cs
    else c :: collapseRunsAux p r false cs

def collapseRuns (p : Char → Bool) (r : Char) (l : Str) : Str := collapseRunsAux p r false l

/-- Remove a single leading dash, mirroring the first half of the
final trim step of `slugify` (global replace of `^-` and of `-$`). -/
def dropLeadDash (l : Str) : Str :=
  match l with
  | c :: t => if c = '-' then t else c :: t
  | [] => []

/-- Remove a single trailing dash, mirroring the non-global replace of `-$`
by the empty string in `videoSlug`, and the second half of the final trim
step of `slugify`. -/
def dropTrailDash (l : Str) : Str := (dropLeadDash l.reverse).reverse

def trimDashes (l : Str) : Str := dropTrailDash (dropLeadDash l)

/-- The `slugify` of `scripts/enrich-restaurants.js` (identical in
`src/lib/data.ts` and `scripts/generate-sitemaps.js`): lowercase, strip every
character outside `[a-z0-9\s-]`, collapse whitespace runs to `-`, collapse
dash runs to a single `-`, trim one leading and one trailing dash. -/
def slugify (text : Str) : Str :=
  trimDashes (collapseRuns (fun c => decide (c = '-')) '-'
    (collapseRuns isSpaceJS '-' ((text.map lcChar).filter isSlugKept)))

/-- Two adjacent dashes occur somewhere in the string. -/
def hasAdjDash : Str → Bool
  | a :: b :: t => (decide (a = '-') && decide (b = '-')) || hasAdjDash (b :: t)
  | _ => false

def isSlugChar (c : Char) : Bool := isLowerAZ c || isDigit09 c || decide (c = '-')

/-- The well-formedness contract on slugs: only `[a-z0-9-]`, no leading dash,
no trailing dash, no double dash. -/
def goodSlug (l : Str) : Bool :=
  l.all isSlugChar && !(decide (l.head? = some '-')) &&
    !(decide (l.getLast? = some '-')) && !hasAdjDash l

structure VideoStats where
  likes : Nat
  comments : Nat
  shares : Nat
deriving DecidableEq

/-- The `Video` record of `src/lib/data.ts`. -/
structure Video where
  videoId : Str
  caption : Str
  createTime : Nat
  thumbnailUrl : Str
  embedUrl : Str
  restaurantSlug : Str
  city : Str
  cuisine : Str
  stats : VideoStats
deriving DecidableEq

/-- The caption part of a video slug: `slugify(video.caption).slice(0, 50)`
with one trailing dash removed. -/
def captionPortion (v : Video) : Str := dropTrailDash ((slugify v.caption).take 50)

/-- The `videoSlug` of `src/lib/data.ts`. -/
def videoSlug (v : Video) : Str := captionPortion v ++ '-' :: v.videoId

/-- A concrete video used to instantiate universally quantified theorems. -/
def sampleVideo : Video :=
  { videoId := str "7301234567890"
    caption := str "Tatiana in Brighton Beach — the most underrated restaurant in NYC"
    createTime := 1706000000
    thumbnailUrl := str "/assets/images/7301234567890/frame-1.jpg"
    embedUrl := str "https://www.tiktok.com/@oneminreviews/video/7301234567890"
    restaurantSlug := str "tatiana"
    city := str "New York"
    cuisine := str "Russian"
    stats := { likes := 29400, comments := 720, shares := 430 } }

/-- A concrete video whose caption normalizes to the empty slug. -/
def emptyCaptionVideo : Video :=
  { videoId := str "99"
    caption := str "!!!"
    createTime := 0
    thumbnailUrl := []
    embedUrl := []
    restaurantSlug := []
    city := []
    cuisine := []
    stats := { likes := 0, comments := 0, shares := 0 } }

-- ===================================================================
-- Entity extraction (extractRestaurantName, extractCity, extractCuisine)
-- ===================================================================

/-- Length of a literal URL scheme prefix at the head of the list, for the
pattern `https?` followed by the colon-slash-slash delimiter. -/
def urlPrefixLen (l : Str) : Option Nat :=
  if l.take 7 = str "http://" then some 7
  else if l.take 8 = str "https://" then some 8
  else none

/-- Remove hashtags: global replace of `#\w+` by the empty string.
Recursion is on a fuel counter initialized to the list length; every
recursive call strips at least one character, so the fuel never runs out. -/
def stripHashtagsAux : Nat → Str → Str
  | _, [] => []
  | 0, l => l
  | fuel + 1, c :: cs =>
    if decide (c = '#') && cs.head?.any isWordChar then
      stripHashtagsAux fuel (cs.dropWhile isWordChar)
    else c :: stripHashtagsAux fuel cs

def stripHashtags (l : Str) : Str := stripHashtagsAux l.length l

/-- Remove URLs: global replace of an `http` or `https` scheme followed by
one or more non-space characters.  Fuel-based like `stripHashtagsAux`. -/
def stripUrlsAux : Nat → Str → Str
  | _, [] => []
  | 0, l => l
  | fuel + 1, c :: cs =>
    match urlPrefixLen (c :: cs) with
    | some k =>
      if ((c :: cs).drop k).head?.any (fun x => !isSpaceJS x) then
        stripUrlsAux fuel (((c :: cs).drop k).dropWhile (fun x => !isSpaceJS x))
      else c :: stripUrlsAux fuel cs
    | none => c :: stripUrlsAux fuel cs

def stripUrls (l : Str) : Str := stripUrlsAux l.length l

/-- Characters kept verbatim by the cleanup step that replaces every
character outside `\w`, `\s`, apostrophe and dash by a space. -/
def keepPunct (c : Char) : Bool :=
  isWordChar c || isSpaceJS c || decide (c.toNat = 39) || decide (c = '-')

/-- JavaScript `String.prototype.trim`. -/
def jsTrim (l : Str) : Str := ((l.dropWhile isSpaceJS).reverse.dropWhile isSpaceJS).reverse

/-- The caption cleanup performed by `extractRestaurantName`: strip hashtags
and URLs, replace non-word punctuation by spaces, collapse whitespace runs
to a single space, trim. -/
def cleanCaption (caption : Str) : Str :=
  jsTrim (collapseRuns isSpaceJS ' '
    ((stripUrls (stripHashtags caption)).map (fun c => if keepPunct c then c else ' ')))

/-- Consume the regex `\s+` (one or more whitespace characters).  In every
pattern below the continuation never begins with a whitespace character, so
the maximal (greedy) run is the only viable choice and backtracking inside
the run can be elided. -/
def ws1 (t : Str) : Option Str :=
  if t.head?.any isSpaceJS then some (t.dropWhile isSpaceJS) else none

def isPrefixStr (p t : Str) : Bool := decide (t.take p.length = p)

/-- The regex `.` (any character except line terminators). -/
def jsDot (c : Char) : Bool :=
  !(decide (c.toNat = 10) || decide (c.toNat = 13) ||
    decide (c.toNat = 8232) || decide (c.toNat = 8233))

/-- Test for `[A-Z][a-z]` at the head of the list (the `[A-Z][a-z]+` tail of
pattern 1 needs at least these two characters). -/
def azCap (t : Str) : Bool :=
  match t with
  | c1 :: c2 :: _ => isUpperAZ c1 && isLowerAZ c2
  | _ => false

def dirWords : List Str := [str "East", str "West", str "North", str "South"]

/-- The optional compass-direction group of pattern 1 followed by
`[A-Z][a-z]+`. -/
def pat1Dir (t : Str) : Bool :=
  azCap t ||
    dirWords.any (fun d =>
      isPrefixStr d t &&
        (match ws1 (t.drop d.length) with
         | some r => azCap r
         | none => false))

/-- The optional literal `the` group of pattern 1 followed by the rest. -/
def pat1The (t : Str) : Bool :=
  pat1Dir t ||
    (isPrefixStr (str "the") t &&
      (match ws1 (t.drop 3) with
       | some r => pat1Dir r
       | none => false))

/-- The tail of pattern 1 after the lazy capture: whitespace, literal `in`,
whitespace, optional `the`, optional direction, then `[A-Z][a-z]+`. -/
def pat1Tail (t : Str) : Bool :=
  match ws1 t with
  | some r =>
    isPrefixStr (str "in") r &&
      (match ws1 (r.drop 2) with
       | some r2 => pat1The r2
       | none => false)
  | none => false

/-- Pattern 1 (anchored): lazy nonempty dot-capture, then `pat1Tail`.  The
lazy quantifier prefers the shortest capture, so the first length (in
increasing order) whose remainder matches wins. -/
def pattern1 (s : Str) : Option Str :=
  (List.range s.length).findSome? (fun i =>
    if (s.take (i + 1)).all jsDot && pat1Tail (s.drop (i + 1)) then some (s.take (i + 1))
    else none)

/-- The capture class `[A-Za-z'\s]` of patterns 2, 3 and 4. -/
def class2 (c : Char) : Bool :=
  isUpperAZ c || isLowerAZ c || decide (c.toNat = 39) || isSpaceJS c

/-- A dash or em-dash at the head, for the `[-—]` class. -/
def headDashEm (r : Str) : Bool :=
  r.head?.any (fun c => decide (c = '-') || decide (c.toNat = 8212))

/-- The terminator alternation of pattern 2: whitespace+dash, or
whitespace+`is`, or optional whitespace then end of string. -/
def pat2Term (u : Str) : Bool :=
  (match ws1 u with
   | some r => headDashEm r
   | none => false) ||
  (match ws1 u with
   | some r => isPrefixStr (str "is") r
   | none => false) ||
  u.all isSpaceJS

/-- The lazy capture `[A-Z][A-Za-z'\s]+?` followed by a terminator check:
shortest extension (at least one class character) whose remainder satisfies
`term` wins. -/
def lazyCap (term : Str → Bool) (v : Str) : Option Str :=
  match v with
  | c0 :: rest =>
    if isUpperAZ c0 then
      (List.range rest.length).findSome? (fun j =>
        if (rest.take (j + 1)).all class2 && term (rest.drop (j + 1)) then
          some (c0 :: rest.take (j + 1))
        else none)
    else none
  | [] => none

/-- A match attempt of pattern 2 at the current position: literal `at`,
whitespace, then the lazy capture. -/
def pat2At (t : Str) : Option Str :=
  if isPrefixStr (str "at") t then
    match ws1 (t.drop 2) with
    | some v => lazyCap pat2Term v
    | none => none
  else none

/-- Left-to-right scan for pattern 2.  The flag records whether the previous
character was a word character (for the `\b` before `at`). -/
def scanPat2 : Bool → Str → Option Str
  | _, [] => none
  | prevWord, c :: cs =>
    match (if prevWord then none else pat2At (c :: cs)) with
    | some m => some m
    | none => scanPat2 (isWordChar c) cs

def pattern2 (s : Str) : Option Str := scanPat2 false s

/-- The terminator of pattern 3: whitespace then a dash or em-dash. -/
def pat3Term (u : Str) : Bool :=
  match ws1 u with
  | some r => headDashEm r
  | none => false

/-- Pattern 3 (anchored): `[A-Z][A-Za-z'\s]+?` then whitespace and a dash. -/
def pattern3 (s : Str) : Option Str := lazyCap pat3Term s

/-- The terminator of pattern 4: whitespace, `has`, whitespace, `the`,
whitespace, `best`. -/
def pat4Term (u : Str) : Bool :=
  match ws1 u with
  | some r =>
    isPrefixStr (str "has") r &&
      (match ws1 (r.drop 3) with
       | some r2 =>
         isPrefixStr (str "the") r2 &&
           (match ws1 (r2.drop 3) with
            | some r3 => isPrefixStr (str "best") r3
            | none => false)
       | none => false)
  | none => false

/-- Pattern 4 (anchored): `[A-Z][A-Za-z'\s]+?` then `has the best`. -/
def pattern4 (s : Str) : Option Str := lazyCap pat4Term s

/-- The terminator of pattern 5: whitespace then literal `worth`. -/
def pat5Term (u : Str) : Bool :=
  match ws1 u with
  | some r => isPrefixStr (str "worth") r
  | none => false

/-- Pattern 5 (anchored): literal `Is`, whitespace, lazy dot-capture, then
whitespace and `worth`.  Because the dot class also matches spaces, the
greedy whitespace run after `Is` backtracks: run lengths are tried from the
maximal run downwards, and for each the capture lengths increase. -/
def pattern5 (s : Str) : Option Str :=
  if isPrefixStr (str "Is") s then
    ((List.range ((s.drop 2).length - ((s.drop 2).dropWhile isSpaceJS).length)).map
        (fun j => (s.drop 2).length - ((s.drop 2).dropWhile isSpaceJS).length - j)).findSome?
      (fun a =>
        (List.range ((s.drop 2).drop a).length).findSome? (fun j2 =>
          if (((s.drop 2).drop a).take (j2 + 1)).all jsDot &&
              pat5Term (((s.drop 2).drop a).drop (j2 + 1)) then
            some (((s.drop 2).drop a).take (j2 + 1))
          else none))
  else none

def patternList : List (Str → Option Str) :=
  [pattern1, pattern2, pattern3, pattern4, pattern5]

/-- Case-insensitive literal prefix test (ASCII case folding), for the
leading-article strip `(Is|At|The)` with the `i` flag. -/
def ciPrefixStr (w l : Str) : Bool :=
  decide ((l.take w.length).map lcChar = w.map lcChar)

/-- Strip a leading `Is`, `At` or `The` (case-insensitive) followed by
whitespace, replacing the whole match by the empty string. -/
def stripLeadArticle (l : Str) : Str :=
  match (if ciPrefixStr (str "Is") l then ws1 (l.drop 2) else none) with
  | some r => r
  | none =>
    match (if ciPrefixStr (str "At") l then ws1 (l.drop 2) else none) with
    | some r => r
    | none =>
      match (if ciPrefixStr (str "The") l then ws1 (l.drop 3) else none) with
      | some r => r
      | none => l

/-- Post-process a raw pattern capture: trim, collapse inner whitespace,
strip a leading article, then keep it only if its length is between 3 and
50. -/
def processCandidate (m : Str) : Option Str :=
  if 3 ≤ (stripLeadArticle (collapseRuns isSpaceJS ' ' (jsTrim m))).length ∧
      (stripLeadArticle (collapseRuns isSpaceJS ' ' (jsTrim m))).length ≤ 50 then
    some (stripLeadArticle (collapseRuns isSpaceJS ' ' (jsTrim m)))
  else none

/-- Try the five caption patterns in order; the first that matches and whose
candidate survives `processCandidate` wins.  A pattern whose candidate fails
the length bound does not stop the cascade. -/
def tryPatterns (cleaned : Str) : Option Str :=
  patternList.findSome? (fun p =>
    match p cleaned with
    | some m => processCandidate m
    | none => none)

/-- Oracle for the external `compromise` named-entity recognizer: the lists
of organization and place entities it returns for a given text. -/
structure NerOracle where
  organizations : Str → List Str
  places : Str → List Str

/-- The oracle of an NER that recognizes nothing. -/
def nerNone : NerOracle := { organizations := fun _ => [], places := fun _ => [] }

/-- JavaScript `split` on the whitespace regex.  Fuel-based. -/
def splitWsAux : Nat → Str → Str → List Str
  | _, cur, [] => [cur.reverse]
  | 0, cur, _ => [cur.reverse]
  | fuel + 1, cur, c :: cs =>
    if isSpaceJS c then cur.reverse :: splitWsAux fuel [] (cs.dropWhile isSpaceJS)
    else splitWsAux fuel (c :: cur) cs

def splitWs (l : Str) : List Str := splitWsAux l.length [] l

/-- A word counts as capitalized for the last-resort fallback when its first
character equals its own uppercase form and the word has length at least 2. -/
def isCapWord (w : Str) : Bool :=
  match w with
  | c0 :: _ :: _ => decide (ucChar c0 = c0)
  | _ => false

/-- Up to `n` further consecutive capitalized words. -/
def capRun : Nat → List Str → List Str
  | 0, _ => []
  | _ + 1, [] => []
  | n + 1, w :: ws => if isCapWord w then w :: capRun n ws else []

/-- Skip leading non-capitalized words, then take at most three consecutive
capitalized words. -/
def leadCapWords : List Str → List Str
  | [] => []
  | w :: ws => if isCapWord w then w :: capRun 2 ws else leadCapWords ws

/-- Last resort of the extractor: join the leading run of capitalized words
with single spaces; fail if there is none. -/
def capitalizedFallback (cleaned : Str) : Option Str :=
  match leadCapWords (splitWs cleaned) with
  | [] => none
  | w :: ws => some (List.intercalate [' '] (w :: ws))

/-- NER fallback: first organization entity, else first place entity, else
the capitalized-words fallback. -/
def nerFallback (ner : NerOracle) (cleaned : Str) : Option Str :=
  match ner.organizations cleaned with
  | o :: _ => some o
  | [] =>
    match ner.places cleaned with
    | p :: _ => some p
    | [] => capitalizedFallback cleaned

/-- Name extraction from a caption without an override: clean, run the
pattern cascade, then the NER fallback. -/
def extractFromCaption (ner : NerOracle) (caption : Str) : Option Str :=
  match tryPatterns (cleanCaption caption) with
  | some n => some n
  | none => nerFallback ner (cleanCaption caption)

/-- The `extractRestaurantName` of `scripts/enrich-restaurants.js`.  The
override value is consulted first; a present but empty string is falsy in
the source's truthiness test, so the heuristics run in that case. -/
def extractRestaurantName (ner : NerOracle) (ov : Str → Option Str)
    (caption videoId : Str) : Option Str :=
  match ov videoId with
  | some o => if o = [] then extractFromCaption ner caption else some o
  | none => extractFromCaption ner caption

/-- True when position `j` of `s` is a `\b` word boundary: exactly one of
the characters around it is a word character (out of range counts as
non-word). -/
def boundaryAt (s : Str) (j : Nat) : Bool :=
  (if j = 0 then false else (s.drop (j - 1)).head?.any isWordChar) !=
    (s.drop j).head?.any isWordChar

/-- Case-insensitive whole-word occurrence of the alias `w` at position `i`. -/
def matchesAliasAt (s w : Str) (i : Nat) : Bool :=
  decide (((s.drop i).take w.length).map lcChar = w.map lcChar) &&
    boundaryAt s i && boundaryAt s (i + w.length)

/-- Test of a `\b(?:a1|a2|...)\b` regex with the `i` flag: some alternative
occurs somewhere as a whole word. -/
def regexWordMatch (w s : Str) : Bool :=
  (List.range (s.length + 1)).any (fun i => matchesAliasAt s w i)

/-- The ordered city-alias dictionary of `extractCity`. -/
def cityTable : List (Str × List Str) :=
  [ (str "New York", [str "NYC", str "New York", str "Manhattan", str "Brooklyn",
      str "Queens", str "Bronx", str "Staten Island"]),
    (str "Los Angeles", [str "LA", str "Los Angeles", str "Brentwood", str "Hollywood",
      str "Beverly Hills", str "Arts District"]),
    (str "Chicago", [str "Chicago", str "Wicker Park", str "Lincoln Park", str "River North"]),
    (str "Austin", [str "Austin"]),
    (str "San Francisco", [str "SF", str "San Francisco", str "Mission District"]),
    (str "Miami", [str "Miami", str "Wynwood", str "South Beach"]),
    (str "Houston", [str "Houston"]),
    (str "Nashville", [str "Nashville"]),
    (str "Portland", [str "Portland"]),
    (str "Seattle", [str "Seattle"]),
    (str "Philadelphia", [str "Philly", str "Philadelphia"]),
    (str "Dallas", [str "Dallas"]),
    (str "Denver", [str "Denver"]),
    (str "Atlanta", [str "Atlanta", str "ATL"]) ]

/-- The `extractCity` of `scripts/enrich-restaurants.js`: the first city whose
alias regex matches the raw caption; empty string when none does. -/
def extractCity (caption : Str) : Str :=
  match cityTable.find? (fun e => e.2.any (fun a => regexWordMatch a caption)) with
  | some e => e.1
  | none => []

/-- Case-sensitive substring occurrence test (JavaScript `includes`). -/
def strIncludes (needle hay : Str) : Bool :=
  (List.range (hay.length + 1)).any (fun i => decide ((hay.drop i).take needle.length = needle))

/-- The ordered cuisine keyword dictionary of `extractCuisine`. -/
def cuisineTable : List (Str × List Str) :=
  [ (str "Pizza", [str "pizza", str "slice", str "neapolitan", str "deep dish", str "pie"]),
    (str "BBQ", [str "bbq", str "barbecue", str "brisket", str "pulled pork", str "ribs",
      str "smoker"]),
    (str "Mexican", [str "taco", str "burrito", str "mexican", str "torta", str "quesadilla",
      str "enchilada"]),
    (str "Chinese", [str "chinese", str "dim sum", str "dumpling", str "noodle", str "wonton"]),
    (str "Japanese", [str "sushi", str "ramen", str "japanese", str "izakaya", str "omakase"]),
    (str "Italian", [str "pasta", str "italian", str "risotto", str "gnocchi"]),
    (str "Indian", [str "curry", str "indian", str "naan", str "tandoori", str "biryani"]),
    (str "Thai", [str "thai", str "pad thai", str "green curry"]),
    (str "Korean", [str "korean", str "bibimbap", str "kimchi", str "kbbq"]),
    (str "Deli", [str "deli", str "pastrami", str "corned beef", str "sandwich"]),
    (str "Burger", [str "burger", str "smash burger"]),
    (str "Seafood", [str "seafood", str "lobster", str "crab", str "oyster", str "shrimp"]),
    (str "Middle Eastern", [str "shawarma", str "falafel", str "hummus", str "middle eastern",
      str "kebab"]),
    (str "Vegetarian", [str "vegan", str "vegetarian", str "veggie", str "plant-based"]),
    (str "American", [str "american", str "comfort food", str "diner"]),
    (str "French", [str "french", str "bistro", str "croissant", str "brasserie"]),
    (str "Russian", [str "russian", str "georgian", str "pelmeni", str "khachapuri"]) ]

/-- The `extractCuisine` of `scripts/enrich-restaurants.js`: the first cuisine
one of whose keywords occurs in the lowercased caption. -/
def extractCuisine (caption : Str) : Str :=
  match cuisineTable.find? (fun e => e.2.any (fun k => strIncludes k (caption.map lcChar))) with
  | some e => e.1
  | none => []

/-- The city-to-state lookup table of `getState`. -/
def stateTable : List (Str × Str) :=
  [ (str "New York", str "NY"), (str "Los Angeles", str "CA"), (str "Chicago", str "IL"),
    (str "Austin", str "TX"), (str "San Francisco", str "CA"), (str "Miami", str "FL"),
    (str "Houston", str "TX"), (str "Nashville", str "TN"), (str "Portland", str "OR"),
    (str "Seattle", str "WA"), (str "Philadelphia", str "PA"), (str "Dallas", str "TX"),
    (str "Denver", str "CO"), (str "Atlanta", str "GA") ]

/-- The `getState` of `scripts/enrich-restaurants.js`. -/
def getState (city : Str) : Str :=
  match stateTable.find? (fun e => decide (e.1 = city)) with
  | some e => e.2
  | none => []

/-- The caption of the specification's extraction scenario. -/
def tatCaption : Str := str "Tatiana in Brighton Beach — the best restaurant"

/-- An override table mapping the identifier `v1` to the empty string. -/
def ovEmptyVal : Str → Option Str := fun id => if id = str "v1" then some [] else none

/-- An override table mapping the identifier `v2` to a two-character value
that fails both the cleanup and the pattern length bound. -/
def ovShort : Str → Option Str := fun id => if id = str "v2" then some (str "Z!") else none

/-- An override table mapping the identifier `v1` to a name different from
everything the caption heuristics could produce. -/
def ovCafe : Str → Option Str := fun id => if id = str "v1" then some (str "Cafe X") else none

-- ===================================================================
-- Merge engine (main of scripts/enrich-restaurants.js)
-- ===================================================================

structure ReviewEntry where
  source : Str
  author : Str
  rating : Rat
  text : Str
  date : Str
deriving DecidableEq

/-- One provider rating record (`RatingData` in `src/lib/data.ts`):
`placeId` is the Google identifying field, `url` the Yelp one; both are
absent in a freshly created shell. -/
structure RatingRec where
  rating : Rat
  reviewCount : Nat
  placeId : Option Str := none
  url : Option Str := none
deriving DecidableEq

/-- The `Restaurant` record of `src/lib/data.ts`.  The rating records are
optional because a loaded registry entry may lack them (the enrichment
gates read them through optional chaining). -/
structure Restaurant where
  name : Str
  slug : Str
  city : Str
  state : Str
  cuisine : Str
  address : Str
  lat : Rat
  lng : Rat
  google : Option RatingRec
  yelp : Option RatingRec
  reviews : List ReviewEntry
  videoIds : List Str
deriving DecidableEq

/-- What `searchGooglePlaces` returns on success. -/
structure GoogleResult where
  google : RatingRec
  address : Str
  lat : Rat
  lng : Rat
  reviews : List ReviewEntry
deriving DecidableEq

/-- What `searchYelp` returns on success. -/
structure YelpResult where
  yelp : RatingRec
deriving DecidableEq

/-- The restaurant registry: a string-keyed map with insertion order,
modeling a JavaScript object. -/
abbrev Registry := List (Str × Restaurant)

def lookupR : Registry → Str → Option Restaurant
  | [], _ => none
  | (k, r) :: t, s => if k = s then some r else lookupR t s

/-- Key update: replace in place when the key is present, append when it is
absent (JavaScript object assignment, insertion order preserved). -/
def setR : Registry → Str → Restaurant → Registry
  | [], s, r => [(s, r)]
  | (k, x) :: t, s, r => if k = s then (k, r) :: t else (k, x) :: setR t s r

/-- JavaScript string truthiness. -/
def truthyStr (s : Str) : Bool := !(decide (s = []))

def truthyOptStr : Option Str → Bool
  | none => false
  | some s => truthyStr s

/-- The Google enrichment gate: the identifying field is falsy or the
rating is exactly zero (true as well when the whole record is absent). -/
def googleGate (r : Restaurant) : Bool :=
  match r.google with
  | none => true
  | some g => !truthyOptStr g.placeId || decide (g.rating = 0)

/-- The Yelp enrichment gate, analogous to the Google one with `url` as the
identifying field. -/
def yelpGate (r : Restaurant) : Bool :=
  match r.yelp with
  | none => true
  | some y => !truthyOptStr y.url || decide (y.rating = 0)

/-- The shell created for a slug not yet in the registry. -/
def enrichShell (name slug city state cuisine : Str) : Restaurant :=
  { name := name, slug := slug, city := city, state := state, cuisine := cuisine,
    address := [], lat := 0, lng := 0,
    google := some { rating := 0, reviewCount := 0 },
    yelp := some { rating := 0, reviewCount := 0 },
    reviews := [], videoIds := [] }

/-- The patch applied when `searchGooglePlaces` returns data: replace the
google record, keep the old address and coordinates when the new ones are
falsy, prepend the new google review snippets to the snippets of other
sources. -/
def applyGoogle (gd : GoogleResult) (r : Restaurant) : Restaurant :=
  { r with
    google := some gd.google
    address := if truthyStr gd.address then gd.address else r.address
    lat := if gd.lat = 0 then r.lat else gd.lat
    lng := if gd.lng = 0 then r.lng else gd.lng
    reviews := gd.reviews ++ r.reviews.filter (fun rv => !(decide (rv.source = str "google"))) }

/-- The pipeline configuration: the NER oracle, the override table and the
two rating-provider adapters (a disabled or failing provider returns
none). -/
structure MergeCfg where
  ner : NerOracle
  overrides : Str → Option Str
  googleSearch : Str → Str → Option GoogleResult
  yelpSearch : Str → Str → Option YelpResult

/-- The same configuration with both providers returning no result. -/
def noProviders (cfg : MergeCfg) : MergeCfg :=
  { cfg with googleSearch := fun _ _ => none, yelpSearch := fun _ _ => none }

/-- The classification write-back onto the video: slug from the extracted
name; city and cuisine keep a truthy pre-existing value, otherwise they are
extracted from the caption. -/
def classifiedVideo (v : Video) (name : Str) : Video :=
  { v with
    restaurantSlug := slugify name
    city := if truthyStr v.city then v.city else extractCity v.caption
    cuisine := if truthyStr v.cuisine then v.cuisine else extractCuisine v.caption }

/-- Registry upsert: return the restaurant stored under the extracted
name's slug, creating a shell when the slug is new. -/
def ensureShell (R : Registry) (v : Video) (name : Str) : Registry × Restaurant :=
  match lookupR R (slugify name) with
  | some r => (R, r)
  | none =>
    (setR R (slugify name)
      (enrichShell name (slugify name)
        (if truthyStr v.city then v.city else extractCity v.caption)
        (getState (if truthyStr v.city then v.city else extractCity v.caption))
        (if truthyStr v.cuisine then v.cuisine else extractCuisine v.caption)),
     enrichShell name (slugify name)
       (if truthyStr v.city then v.city else extractCity v.caption)
       (getState (if truthyStr v.city then v.city else extractCity v.caption))
       (if truthyStr v.cuisine then v.cuisine else extractCuisine v.caption))

/-- The Google branch of the loop: call the provider only when the city is
truthy and the gate is open; patch only on data. -/
def googleStep (cfg : MergeCfg) (name city : Str) (r : Restaurant) : Restaurant :=
  if truthyStr city && googleGate r then
    match cfg.googleSearch name city with
    | some gd => applyGoogle gd r
    | none => r
  else r

/-- The Yelp branch of the loop. -/
def yelpStep (cfg : MergeCfg) (name city : Str) (r : Restaurant) : Restaurant :=
  if truthyStr city && yelpGate r then
    match cfg.yelpSearch name city with
    | some yd => { r with yelp := some yd.yelp }
    | none => r
  else r

/-- Cross-link: append the video identifier to the restaurant when absent. -/
def addVideoId (id : Str) (r : Restaurant) : Restaurant :=
  if id ∈ r.videoIds then r else { r with videoIds := r.videoIds ++ [id] }

/-- Processing of one video once a name has been extracted. -/
def processExtracted (cfg : MergeCfg) (R : Registry) (acc : List Video)
    (v : Video) (name : Str) : Registry × List Video :=
  (setR (ensureShell R v name).1 (slugify name)
    (addVideoId v.videoId
      (yelpStep cfg name (if truthyStr v.city then v.city else extractCity v.caption)
        (googleStep cfg name (if truthyStr v.city then v.city else extractCity v.caption)
          (ensureShell R v name).2))),
   acc ++ [classifiedVideo v name])

/-- One iteration of the `for (const video of videos)` loop of `main`:
`existing` is the registry loaded at startup (used by the fast path), the
state carries the evolving registry and the output video list. -/
def enrichVideo (cfg : MergeCfg) (existing : Registry)
    (st : Registry × List Video) (v : Video) : Registry × List Video :=
  if truthyStr v.restaurantSlug && (lookupR existing v.restaurantSlug).isSome &&
      truthyStr v.city then
    (st.1, st.2 ++ [v])
  else
    match extractRestaurantName cfg.ner cfg.overrides v.caption v.videoId with
    | none => (st.1, st.2 ++ [v])
    | some name => processExtracted cfg st.1 st.2 v name

/-- The merge engine: fold the loop over the video list, starting from a
copy of the loaded registry, and return the updated video list and
registry. -/
def runMerge (cfg : MergeCfg) (videos : List Video) (existing : Registry) :
    List Video × Registry :=
  ((videos.foldl (enrichVideo cfg existing) (existing, [])).2,
   (videos.foldl (enrichVideo cfg existing) (existing, [])).1)

/-- A video is settled for registry `Rex`: re-running the loop body on it
with no provider responses changes nothing.  Either the fast path fires, or
extraction fails, or the video carries exactly the classification that
extraction reproduces and the registry already cross-links it. -/
def Settled (ner : NerOracle) (ov : Str → Option Str) (Rex : Registry) (v : Video) : Prop :=
  (truthyStr v.restaurantSlug = true ∧ (lookupR Rex v.restaurantSlug).isSome = true ∧
      truthyStr v.city = true)
  ∨ extractRestaurantName ner ov v.caption v.videoId = none
  ∨ (∃ name, extractRestaurantName ner ov v.caption v.videoId = some name ∧
      v.restaurantSlug = slugify name ∧
      (v.city = [] → extractCity v.caption = []) ∧
      (v.cuisine = [] → extractCuisine v.caption = []) ∧
      ∃ r, lookupR Rex (slugify name) = some r ∧ v.videoId ∈ r.videoIds)

/-- The registry stores video identifier `x` under key `k`. -/
def IdKept (R : Registry) (k : Str) (x : Str) : Prop :=
  ∃ r, lookupR R k = some r ∧ x ∈ r.videoIds

/-- The registry keeps, under key `k`, every populated-with-identifier
rating record that `r0` carries. -/
def RatedKept (R : Registry) (k : Str) (r0 : Restaurant) : Prop :=
  ∃ r, lookupR R k = some r ∧
    (∀ g, r0.google = some g → ¬ g.rating = 0 → truthyOptStr g.placeId = true →
      r.google = some g) ∧
    (∀ y, r0.yelp = some y → ¬ y.rating = 0 → truthyOptStr y.url = true →
      r.yelp = some y)

/-- Configuration with no NER hits, no overrides and no provider data. -/
def cfgIdle : MergeCfg :=
  { ner := nerNone, overrides := fun _ => none,
    googleSearch := fun _ _ => none, yelpSearch := fun _ _ => none }

/-- A video carrying a dangling restaurant key and a caption from which no
name can be extracted. -/
def ghostVideo : Video :=
  { videoId := str "g1", caption := [], createTime := 0, thumbnailUrl := [],
    embedUrl := [], restaurantSlug := str "ghost", city := [], cuisine := [],
    stats := { likes := 0, comments := 0, shares := 0 } }

/-- A video with no classification at all. -/
def blankVideo : Video :=
  { videoId := str "u1", caption := [], createTime := 0, thumbnailUrl := [],
    embedUrl := [], restaurantSlug := [], city := [], cuisine := [],
    stats := { likes := 0, comments := 0, shares := 0 } }

/-- Override table sending `t1` to `Tatiana`. -/
def ovTat : Str → Option Str := fun id => if id = str "t1" then some (str "Tatiana") else none

/-- A mocked Google provider returning a rating of 1. -/
def gProvOne : Str → Str → Option GoogleResult :=
  fun _ _ => some { google := { rating := 1, reviewCount := 3, placeId := some (str "px") },
                    address := [], lat := 0, lng := 0, reviews := [] }

/-- Configuration used for the no-clobber analysis: override-driven name,
mocked Google provider, no Yelp. -/
def cfgClobber : MergeCfg :=
  { ner := nerNone, overrides := ovTat, googleSearch := gProvOne,
    yelpSearch := fun _ _ => none }

/-- A registry entry with a populated (non-zero) Google rating but no
placeId — e.g. a manually corrected record. -/
def ratedNoId : Restaurant :=
  { name := str "Tatiana", slug := str "tatiana", city := str "New York",
    state := str "NY", cuisine := [], address := [], lat := 0, lng := 0,
    google := some { rating := 4, reviewCount := 10 },
    yelp := some { rating := 0, reviewCount := 0 },
    reviews := [], videoIds := [] }

/-- The same entry with both rating records fully populated (non-zero
rating and identifying field present). -/
def ratedFull : Restaurant :=
  { ratedNoId with
    google := some { rating := 4, reviewCount := 10, placeId := some (str "p") },
    yelp := some { rating := 3, reviewCount := 5, url := some (str "u") } }

/-- A video that reaches the enrichment gates for slug `tatiana`: empty
slug (so the fast path fails), truthy city, name supplied by override. -/
def clobberVideo : Video :=
  { videoId := str "t1", caption := [], createTime := 0, thumbnailUrl := [],
    embedUrl := [], restaurantSlug := [], city := str "New York",
    cuisine := str "Russian", stats := { likes := 0, comments := 0, shares := 0 } }

-- ===================================================================
-- Theorems
-- ===================================================================

theorem mem_collapseRunsAux (p : Char → Bool) (r : Char) :
    ∀ (b : Bool) (l : Str) (c : Char), c ∈ collapseRunsAux p r b l →
      c = r ∨ (c ∈ l ∧ p c = false) := by
  intro b l
  induction l generalizing b with
  | nil => intro c h; simp [collapseRunsAux] at h
  | cons a t ih =>
    intro c h
    by_cases hp : p a
    · cases b with
      | true =>
        rw [collapseRunsAux, if_pos hp, if_pos rfl] at h
        rcases ih true c h with h1 | h2
        · exact Or.inl h1
        · exact Or.inr ⟨List.mem_cons_of_mem _ h2.1, h2.2⟩
      | false =>
        rw [collapseRunsAux, if_pos hp, if_neg (by simp)] at h
        simp only [List.mem_cons] at h
        rcases h with h1 | h1
        · exact Or.inl h1
        · rcases ih true c h1 with h2 | h2
          · exact Or.inl h2
          · exact Or.inr ⟨List.mem_cons_of_mem _ h2.1, h2.2⟩
    · rw [collapseRunsAux, if_neg hp] at h
      simp only [List.mem_cons] at h
      rcases h with h1 | h1
      · subst h1; exact Or.inr ⟨List.mem_cons_self _ _, by simpa using hp⟩
      · rcases ih false c h1 with h2 | h2
        · exact Or.inl h2
        · exact Or.inr ⟨List.mem_cons_of_mem _ h2.1, h2.2⟩

theorem collapseRunsAux_eq_self (p : Char → Bool) (r : Char) :
    ∀ (b : Bool) (l : Str), (∀ c ∈ l, p c = false) → collapseRunsAux p r b l = l := by
  intro b l
  induction l generalizing b with
  | nil => intro _; rfl
  | cons a t ih =>
    intro h
    have ha : p a = false := h a (List.mem_cons_self _ _)
    rw [collapseRunsAux, if_neg (by simp [ha])]
    rw [ih false (fun c hc => h c (List.mem_cons_of_mem _ hc))]

theorem head_collapseDashAux_true (l : Str) :
    ¬ (collapseRunsAux (fun c => decide (c = '-')) '-' true l).head? = some '-' := by
  induction l with
  | nil => simp [collapseRunsAux]
  | cons a t ih =>
    by_cases ha : a = '-'
    · rw [collapseRunsAux, if_pos (by simp [ha])]
      exact ih
    · rw [collapseRunsAux, if_neg (by simp [ha])]
      simp [ha]

theorem hasAdjDash_cons (a : Char) (x : Str) :
    hasAdjDash (a :: x) =
      ((decide (a = '-') && decide (x.head? = some '-')) || hasAdjDash x) := by
  cases x with
  | nil => simp [hasAdjDash]
  | cons b t => simp [hasAdjDash]

theorem hasAdjDash_collapseDash (l : Str) :
    ∀ b : Bool, hasAdjDash (collapseRunsAux (fun c => decide (c = '-')) '-' b l) = false := by
  induction l with
  | nil => intro b; simp [collapseRunsAux, hasAdjDash]
  | cons a t ih =>
    intro b
    by_cases ha : a = '-'
    · cases b with
      | true =>
        rw [collapseRunsAux, if_pos (by simp [ha]), if_pos rfl]
        exact ih true
      | false =>
        rw [collapseRunsAux, if_pos (by simp [ha]), if_neg (by simp)]
        rw [hasAdjDash_cons]
        have hh := head_collapseDashAux_true t
        simp [ih true, hh]
    · rw [collapseRunsAux, if_neg (by simp [ha])]
      rw [hasAdjDash_cons]
      simp [ha, ih false]

theorem collapseDash_eq_self (l : Str) (h : hasAdjDash l = false) :
    collapseRunsAux (fun c => decide (c = '-')) '-' false l = l ∧
      (¬ l.head? = some '-' → collapseRunsAux (fun c => decide (c = '-')) '-' true l = l) := by
  induction l with
  | nil => exact ⟨rfl, fun _ => rfl⟩
  | cons a t ih =>
    rw [hasAdjDash_cons] at h
    simp only [Bool.or_eq_false_iff, Bool.and_eq_false_iff] at h
    obtain ⟨h1, h2⟩ := h
    obtain ⟨iht, ihtrue⟩ := ih h2
    constructor
    · by_cases ha : a = '-'
      · rw [collapseRunsAux, if_pos (by simp [ha]), if_neg (by simp)]
        have hth : ¬ t.head? = some '-' := by
          rcases h1 with h1 | h1
          · simp [ha] at h1
          · simpa using h1
        rw [ihtrue hth, ha]
      · rw [collapseRunsAux, if_neg (by simp [ha]), iht]
    · intro hh
      have ha : ¬ a = '-' := by simpa using hh
      rw [collapseRunsAux, if_neg (by simp [ha]), iht]

theorem hasAdjDash_snoc (l : Str) (c : Char) :
    hasAdjDash (l ++ [c]) =
      (hasAdjDash l || (decide (l.getLast? = some '-') && decide (c = '-'))) := by
  induction l with
  | nil => simp [hasAdjDash]
  | cons a t ih =>
    rw [List.cons_append, hasAdjDash_cons, ih, hasAdjDash_cons]
    cases t with
    | nil => simp [hasAdjDash]
    | cons b u =>
      simp only [List.cons_append, List.head?_cons, List.getLast?_cons_cons]
      simp [Bool.or_assoc]

theorem hasAdjDash_reverse (l : Str) : hasAdjDash l.reverse = hasAdjDash l := by
  induction l with
  | nil => rfl
  | cons a t ih =>
    rw [List.reverse_cons, hasAdjDash_snoc, ih, List.getLast?_reverse, hasAdjDash_cons]
    cases hasAdjDash t <;> cases decide (a = '-') <;> cases decide (t.head? = some '-') <;> simp

theorem dropLeadDash_eq_or (l : Str) : dropLeadDash l = l ∨ dropLeadDash l = l.tail := by
  cases l with
  | nil => exact Or.inl rfl
  | cons a t =>
    by_cases ha : a = '-'
    · exact Or.inr (by simp [dropLeadDash, ha])
    · exact Or.inl (by simp [dropLeadDash, ha])

theorem hasAdjDash_tail (l : Str) (h : hasAdjDash l = false) : hasAdjDash l.tail = false := by
  cases l with
  | nil => exact h
  | cons a t =>
    rw [hasAdjDash_cons] at h
    simp only [Bool.or_eq_false_iff] at h
    exact h.2

theorem mem_dropLeadDash (l : Str) (c : Char) (h : c ∈ dropLeadDash l) : c ∈ l := by
  rcases dropLeadDash_eq_or l with he | he <;> rw [he] at h
  · exact h
  · exact List.mem_of_mem_tail h

theorem head_dropLeadDash (l : Str) (h : hasAdjDash l = false) :
    ¬ (dropLeadDash l).head? = some '-' := by
  cases l with
  | nil => simp [dropLeadDash]
  | cons a t =>
    by_cases ha : a = '-'
    · rw [dropLeadDash, if_pos ha]
      rw [hasAdjDash_cons] at h
      simp only [Bool.or_eq_false_iff, Bool.and_eq_false_iff] at h
      rcases h.1 with h1 | h1
      · simp [ha] at h1
      · simpa using h1
    · rw [dropLeadDash, if_neg ha]
      simpa using ha

theorem getLast_dropTrailDash (l : Str) (h : hasAdjDash l = false) :
    ¬ (dropTrailDash l).getLast? = some '-' := by
  rw [dropTrailDash, List.getLast?_reverse]
  exact head_dropLeadDash l.reverse (by rw [hasAdjDash_reverse]; exact h)

theorem dropTrailDash_head_or (l : Str) :
    (dropTrailDash l).head? = l.head? ∨ dropTrailDash l = [] := by
  cases hrev : l.reverse with
  | nil =>
    right
    rw [dropTrailDash, hrev]
    rfl
  | cons c t =>
    have hl : l = t.reverse ++ [c] := by
      have := congrArg List.reverse hrev
      simpa using this
    by_cases hc : c = '-'
    · rw [dropTrailDash, hrev]
      simp only [dropLeadDash, if_pos hc]
      cases htr : t.reverse with
      | nil => right; rfl
      | cons x y =>
        left
        rw [hl, htr]
        simp
    · rw [dropTrailDash, hrev]
      simp only [dropLeadDash, if_neg hc]
      left
      rw [List.reverse_cons, ← hl]

theorem head_dropTrailDash (l : Str) (h : ¬ l.head? = some '-') :
    ¬ (dropTrailDash l).head? = some '-' := by
  rcases dropTrailDash_head_or l with he | he
  · rw [he]; exact h
  · rw [he]; simp

theorem length_dropTrailDash_le (l : Str) : (dropTrailDash l).length ≤ l.length := by
  rcases dropLeadDash_eq_or l.reverse with he | he
  · rw [dropTrailDash, he, List.reverse_reverse]
  · rw [dropTrailDash, he]
    simp only [List.length_reverse, List.length_tail]
    omega

theorem hasAdjDash_take (l : Str) (h : hasAdjDash l = false) :
    ∀ n : Nat, hasAdjDash (l.take n) = false := by
  induction l with
  | nil => intro n; simp [hasAdjDash]
  | cons a t ih =>
    intro n
    cases n with
    | zero => simp [hasAdjDash]
    | succ m =>
      rw [hasAdjDash_cons] at h
      simp only [Bool.or_eq_false_iff, Bool.and_eq_false_iff] at h
      rw [List.take_succ_cons, hasAdjDash_cons]
      simp only [Bool.or_eq_false_iff, Bool.and_eq_false_iff]
      refine ⟨?_, ih h.2 m⟩
      rcases h.1 with h1 | h1
      · exact Or.inl h1
      · cases t with
        | nil => simp
        | cons b u =>
          cases m with
          | zero => simp
          | succ k =>
            right
            rw [List.take_succ_cons]
            simpa using h1

theorem mem_dropTrailDash (l : Str) (c : Char) (h : c ∈ dropTrailDash l) : c ∈ l := by
  rw [dropTrailDash] at h
  rw [List.mem_reverse] at h
  have := mem_dropLeadDash _ _ h
  rwa [List.mem_reverse] at this

theorem hasAdjDash_dropLeadDash (l : Str) (h : hasAdjDash l = false) :
    hasAdjDash (dropLeadDash l) = false := by
  rcases dropLeadDash_eq_or l with he | he <;> rw [he]
  · exact h
  · exact hasAdjDash_tail l h

theorem hasAdjDash_dropTrailDash (l : Str) (h : hasAdjDash l = false) :
    hasAdjDash (dropTrailDash l) = false := by
  rw [dropTrailDash, hasAdjDash_reverse]
  exact hasAdjDash_dropLeadDash _ (by rw [hasAdjDash_reverse]; exact h)

theorem dropLeadDash_eq_self (l : Str) (h : ¬ l.head? = some '-') : dropLeadDash l = l := by
  cases l with
  | nil => rfl
  | cons a t =>
    rw [dropLeadDash, if_neg (by simpa using h)]

theorem dropTrailDash_eq_self (l : Str) (h : ¬ l.getLast? = some '-') : dropTrailDash l = l := by
  rw [dropTrailDash, dropLeadDash_eq_self _ (by rw [List.head?_reverse]; exact h),
    List.reverse_reverse]

theorem isSpaceJS_of_slugChar (c : Char) (h : isSlugChar c = true) : isSpaceJS c = false := by
  simp only [isSlugChar, Bool.or_eq_true, isLowerAZ, isDigit09, decide_eq_true_eq] at h
  simp only [isSpaceJS, decide_eq_false_iff_not]
  rcases h with (h | h) | h
  · omega
  · omega
  · subst h; decide

theorem isUpperAZ_of_slugChar (c : Char) (h : isSlugChar c = true) : isUpperAZ c = false := by
  simp only [isSlugChar, Bool.or_eq_true, isLowerAZ, isDigit09, decide_eq_true_eq] at h
  simp only [isUpperAZ, decide_eq_false_iff_not]
  rcases h with (h | h) | h
  · omega
  · omega
  · subst h; decide

theorem lcChar_eq_self (c : Char) (h : isSlugChar c = true) : lcChar c = c := by
  rw [lcChar, isUpperAZ_of_slugChar c h]
  rfl

theorem isSlugKept_of_slugChar (c : Char) (h : isSlugChar c = true) : isSlugKept c = true := by
  simp only [isSlugChar, Bool.or_eq_true] at h
  simp only [isSlugKept, Bool.or_eq_true]
  tauto

theorem map_id_of_mem (f : Char → Char) (l : Str) (h : ∀ c ∈ l, f c = c) : l.map f = l := by
  induction l with
  | nil => rfl
  | cons a t ih =>
    rw [List.map_cons, h a (List.mem_cons_self _ _),
      ih (fun c hc => h c (List.mem_cons_of_mem _ hc))]

theorem mem_slugify (s : Str) (c : Char) (h : c ∈ slugify s) : isSlugChar c = true := by
  rw [slugify, trimDashes] at h
  have h2 := mem_dropLeadDash _ _ (mem_dropTrailDash _ _ h)
  rcases mem_collapseRunsAux _ _ _ _ _ h2 with h3 | h3
  · subst h3; simp [isSlugChar]
  · rcases mem_collapseRunsAux _ _ _ _ _ h3.1 with h4 | h4
    · subst h4; simp [isSlugChar]
    · have h5 := List.mem_filter.mp h4.1
      have hk := h5.2
      have hs := h4.2
      simp only [isSlugKept, Bool.or_eq_true] at hk
      simp only [isSlugChar, Bool.or_eq_true]
      rcases hk with ((hk | hk) | hk) | hk
      · exact Or.inl (Or.inl hk)
      · exact Or.inl (Or.inr hk)
      · rw [hk] at hs; cases hs
      · exact Or.inr hk

theorem hasAdjDash_slugify (s : Str) : hasAdjDash (slugify s) = false := by
  rw [slugify, trimDashes]
  exact hasAdjDash_dropTrailDash _ (hasAdjDash_dropLeadDash _ (hasAdjDash_collapseDash _ false))

theorem head_slugify (s : Str) : ¬ (slugify s).head? = some '-' := by
  rw [slugify, trimDashes]
  exact head_dropTrailDash _ (head_dropLeadDash _ (hasAdjDash_collapseDash _ false))

theorem last_slugify (s : Str) : ¬ (slugify s).getLast? = some '-' := by
  rw [slugify, trimDashes]
  exact getLast_dropTrailDash _ (hasAdjDash_dropLeadDash _ (hasAdjDash_collapseDash _ false))

theorem goodSlug_slugify (s : Str) : goodSlug (slugify s) = true := by
  simp only [goodSlug, Bool.and_eq_true, Bool.not_eq_true', decide_eq_false_iff_not,
    List.all_eq_true]
  exact ⟨⟨⟨fun c hc => mem_slugify s c hc, head_slugify s⟩, last_slugify s⟩,
    hasAdjDash_slugify s⟩

theorem slugify_fixed (l : Str) (h : goodSlug l = true) : slugify l = l := by
  simp only [goodSlug, Bool.and_eq_true, Bool.not_eq_true', decide_eq_false_iff_not,
    List.all_eq_true] at h
  obtain ⟨⟨⟨hall, hhead⟩, hlast⟩, hadj⟩ := h
  rw [slugify]
  simp only [collapseRuns]
  rw [map_id_of_mem _ _ (fun c hc => lcChar_eq_self c (hall c hc))]
  rw [List.filter_eq_self.mpr (fun c hc => isSlugKept_of_slugChar c (hall c hc))]
  rw [collapseRunsAux_eq_self _ _ _ _
    (fun c hc => isSpaceJS_of_slugChar c (hall c hc))]
  rw [(collapseDash_eq_self l hadj).1]
  rw [trimDashes, dropLeadDash_eq_self l hhead, dropTrailDash_eq_self l hlast]

/-- Claim C7: `slugify` maps `"NYC #1 Pizza!"` to `"nyc-1-pizza"`,
`"---hello---"` to `"hello"`, and the empty string to itself; and for every
input string its output contains only characters in `[a-z0-9-]`, with no
leading dash, no trailing dash, and no two consecutive dashes. -/
theorem claim7_slug_stability :
    slugify (str "NYC #1 Pizza!") = str "nyc-1-pizza" ∧
      slugify (str "---hello---") = str "hello" ∧
      slugify (str "") = str "" ∧
      ∀ s : Str, goodSlug (slugify s) = true :=
  ⟨by decide, by decide, by decide, goodSlug_slugify⟩

/-- Claim C8: `slugify` is idempotent: for every input string `x`,
`slugify (slugify x) = slugify x`. -/
theorem claim8_slugify_idempotent : ∀ s : Str, slugify (slugify s) = slugify s :=
  fun s => slugify_fixed (slugify s) (goodSlug_slugify s)

/-- Claim C6: for every video record, the item slug is the caption's
slugified form truncated to at most 50 characters with a single trailing
dash removed, followed by a dash and the video identifier; the caption
portion is at most 50 characters long and does not end in a dash, and the
full slug ends exactly with the dash-prefixed identifier. -/
theorem claim6_videoSlug_contract (v : Video) :
    videoSlug v = captionPortion v ++ '-' :: v.videoId ∧
      captionPortion v = dropTrailDash ((slugify v.caption).take 50) ∧
      (captionPortion v).length ≤ 50 ∧
      decide ((captionPortion v).getLast? = some '-') = false := by
  refine ⟨rfl, rfl, ?_, ?_⟩
  · exact le_trans (length_dropTrailDash_le _) (List.length_take_le _ _)
  · exact decide_eq_false
      (getLast_dropTrailDash _ (hasAdjDash_take _ (hasAdjDash_slugify v.caption) 50))

/-- Claim C10: for every video whose caption slugifies to the empty string,
the item slug is a single dash followed by the video identifier, so it
begins with a leading dash. -/
theorem claim10_empty_caption_slug (v : Video) (h : slugify v.caption = []) :
    videoSlug v = '-' :: v.videoId := by
  rw [videoSlug, captionPortion, h]
  rfl

/-- Witness for claim C10 at a concrete video whose caption is `"!!!"`. -/
theorem claim10_empty_caption_slug_witness :
    videoSlug emptyCaptionVideo = '-' :: str "99" :=
  claim10_empty_caption_slug emptyCaptionVideo (by decide)

/-- Counterexample to claim C4 as stated: on the scenario caption the city
dictionary has no alias covering Brighton Beach, so city extraction returns
the empty string, not New York. -/
theorem claim4_city_counterexample : ¬ extractCity tatCaption = str "New York" := by
  decide

/-- Claim C4 as amended: on the caption of the scenario with an empty
override table, name extraction returns `Tatiana`, produced by the first
pattern; its slug is `tatiana`; and city extraction returns the empty
string because no city alias matches. -/
theorem claim4_extraction_scenario (ner : NerOracle) (videoId : Str) :
    extractRestaurantName ner (fun _ => none) tatCaption videoId = some (str "Tatiana") ∧
      pattern1 (cleanCaption tatCaption) = some (str "Tatiana") ∧
      slugify (str "Tatiana") = str "tatiana" ∧
      extractCity tatCaption = [] := by
  have ht : tryPatterns (cleanCaption tatCaption) = some (str "Tatiana") := by decide
  refine ⟨?_, by decide, by decide, by decide⟩
  simp only [extractRestaurantName, extractFromCaption, ht]

/-- Counterexample to claim C5 as stated: the identifier `v1` is a key of
the override table with value the empty string, yet extraction returns the
caption-derived name `Tatiana`, not the override value. -/
theorem claim5_override_counterexample :
    ovEmptyVal (str "v1") = some [] ∧
      extractRestaurantName nerNone ovEmptyVal tatCaption (str "v1") = some (str "Tatiana") := by
  exact ⟨by decide, by decide⟩

/-- Claim C5 as amended: for every caption and every identifier that the
override table maps to a non-empty name, extraction returns exactly that
name, regardless of the caption. -/
theorem claim5_override_precedence (ner : NerOracle) (ov : Str → Option Str)
    (caption videoId o : Str) (h1 : ov videoId = some o) (h2 : ¬ o = []) :
    extractRestaurantName ner ov caption videoId = some o := by
  simp only [extractRestaurantName, h1]
  rw [if_neg h2]

/-- Witness for claim C5: the override `Cafe X` beats a caption whose
patterns would produce `Tatiana`. -/
theorem claim5_override_precedence_witness :
    extractRestaurantName nerNone ovCafe tatCaption (str "v1") = some (str "Cafe X") :=
  claim5_override_precedence nerNone ovCafe tatCaption (str "v1") (str "Cafe X")
    (by decide) (by decide)

/-- Claim C9: a non-empty override value is returned verbatim, bypassing
caption cleanup and the 3-to-50 length bound; an override equal to the
empty string is treated as absent and the caption heuristics run. -/
theorem claim9_override_bypass (ner : NerOracle) (ov : Str → Option Str)
    (caption videoId : Str) :
    (∀ o : Str, ov videoId = some o → ¬ o = [] →
        extractRestaurantName ner ov caption videoId = some o) ∧
      (ov videoId = some [] →
        extractRestaurantName ner ov caption videoId = extractFromCaption ner caption) := by
  constructor
  · intro o h1 h2
    simp only [extractRestaurantName, h1]
    rw [if_neg h2]
  · intro h1
    simp only [extractRestaurantName, h1]
    simp

/-- Witness for claim C9: the two-character override `Z!` (which fails the
pattern length bound and contains a character the cleanup would strip) is
returned verbatim, and an empty-string override falls through to the
caption heuristics. -/
theorem claim9_override_bypass_witness :
    extractRestaurantName nerNone ovShort tatCaption (str "v2") = some (str "Z!") ∧
      extractRestaurantName nerNone ovEmptyVal tatCaption (str "v1") =
        extractFromCaption nerNone tatCaption :=
  ⟨(claim9_override_bypass nerNone ovShort tatCaption (str "v2")).1 (str "Z!")
      (by decide) (by decide),
    (claim9_override_bypass nerNone ovEmptyVal tatCaption (str "v1")).2 (by decide)⟩

theorem lookup_setR (R : Registry) (k : Str) (r : Restaurant) (s : Str) :
    lookupR (setR R k r) s = if s = k then some r else lookupR R s := by
  induction R with
  | nil =>
    by_cases h : s = k
    · simp [setR, lookupR, h]
    · have h2 : ¬ k = s := fun hh => h hh.symm
      simp [setR, lookupR, h, h2]
  | cons p t ih =>
    obtain ⟨k0, x⟩ := p
    by_cases h0 : k0 = k
    · subst h0
      by_cases hs : s = k0
      · simp [setR, lookupR, hs]
      · have h2 : ¬ k0 = s := fun hh => hs hh.symm
        simp [setR, lookupR, hs, h2]
    · by_cases hs : k0 = s
      · have h2 : ¬ s = k := fun hh => h0 (hs.trans hh)
        simp [setR, lookupR, h0, hs, h2]
      · simp [setR, lookupR, h0, hs, ih]

theorem setR_self (R : Registry) (k : Str) (r : Restaurant)
    (h : lookupR R k = some r) : setR R k r = R := by
  induction R with
  | nil => simp [lookupR] at h
  | cons p t ih =>
    obtain ⟨k0, x⟩ := p
    by_cases h0 : k0 = k
    · subst h0
      rw [lookupR, if_pos rfl] at h
      injection h with h
      rw [setR, if_pos rfl, h]
    · rw [lookupR, if_neg h0] at h
      rw [setR, if_neg h0, ih h]

theorem googleStep_videoIds (cfg : MergeCfg) (n c : Str) (r : Restaurant) :
    (googleStep cfg n c r).videoIds = r.videoIds := by
  unfold googleStep
  split
  · split
    · simp [applyGoogle]
    · rfl
  · rfl

theorem googleStep_yelp (cfg : MergeCfg) (n c : Str) (r : Restaurant) :
    (googleStep cfg n c r).yelp = r.yelp := by
  unfold googleStep
  split
  · split
    · simp [applyGoogle]
    · rfl
  · rfl

theorem yelpStep_videoIds (cfg : MergeCfg) (n c : Str) (r : Restaurant) :
    (yelpStep cfg n c r).videoIds = r.videoIds := by
  unfold yelpStep
  split
  · split
    · simp
    · rfl
  · rfl

theorem yelpStep_google (cfg : MergeCfg) (n c : Str) (r : Restaurant) :
    (yelpStep cfg n c r).google = r.google := by
  unfold yelpStep
  split
  · split
    · simp
    · rfl
  · rfl

theorem addVideoId_google (id : Str) (r : Restaurant) :
    (addVideoId id r).google = r.google := by
  unfold addVideoId
  split <;> rfl

theorem addVideoId_yelp (id : Str) (r : Restaurant) :
    (addVideoId id r).yelp = r.yelp := by
  unfold addVideoId
  split <;> rfl

theorem addVideoId_mem_self (id : Str) (r : Restaurant) :
    id ∈ (addVideoId id r).videoIds := by
  unfold addVideoId
  split
  · assumption
  · simp

theorem addVideoId_mem_mono (id x : Str) (r : Restaurant) (h : x ∈ r.videoIds) :
    x ∈ (addVideoId id r).videoIds := by
  unfold addVideoId
  split
  · exact h
  · simp [h]

theorem addVideoId_self_of_mem (id : Str) (r : Restaurant) (h : id ∈ r.videoIds) :
    addVideoId id r = r := by
  unfold addVideoId
  rw [if_pos h]

theorem googleStep_none (cfg : MergeCfg) (n c : Str) (r : Restaurant)
    (h : cfg.googleSearch = fun _ _ => none) : googleStep cfg n c r = r := by
  unfold googleStep
  rw [h]
  split <;> rfl

theorem yelpStep_none (cfg : MergeCfg) (n c : Str) (r : Restaurant)
    (h : cfg.yelpSearch = fun _ _ => none) : yelpStep cfg n c r = r := by
  unfold yelpStep
  rw [h]
  split <;> rfl

theorem googleStep_skip (cfg : MergeCfg) (n c : Str) (r : Restaurant) (g : RatingRec)
    (hg : r.google = some g) (h1 : ¬ g.rating = 0) (h2 : truthyOptStr g.placeId = true) :
    googleStep cfg n c r = r := by
  have hgate : googleGate r = false := by
    rw [googleGate, hg]
    simp [h1, h2]
  unfold googleStep
  rw [hgate]
  simp

theorem yelpStep_skip (cfg : MergeCfg) (n c : Str) (r : Restaurant) (y : RatingRec)
    (hy : r.yelp = some y) (h1 : ¬ y.rating = 0) (h2 : truthyOptStr y.url = true) :
    yelpStep cfg n c r = r := by
  have hgate : yelpGate r = false := by
    rw [yelpGate, hy]
    simp [h1, h2]
  unfold yelpStep
  rw [hgate]
  simp

theorem ensureShell_lookup (R : Registry) (v : Video) (name : Str) :
    lookupR (ensureShell R v name).1 (slugify name) = some (ensureShell R v name).2 := by
  unfold ensureShell
  split
  · assumption
  · rw [lookup_setR, if_pos rfl]

theorem ensureShell_of_lookup (R : Registry) (v : Video) (name : Str) (r : Restaurant)
    (h : lookupR R (slugify name) = some r) : ensureShell R v name = (R, r) := by
  unfold ensureShell
  rw [h]

theorem ensureShell_key_mono (R : Registry) (v : Video) (name : Str) (k : Str)
    (h : (lookupR R k).isSome = true) :
    (lookupR (ensureShell R v name).1 k).isSome = true := by
  unfold ensureShell
  split
  · exact h
  · rw [lookup_setR]
    split
    · simp
    · exact h

theorem ensureShell_lookup_ne (R : Registry) (v : Video) (name : Str) (k : Str)
    (hk : ¬ k = slugify name) :
    lookupR (ensureShell R v name).1 k = lookupR R k := by
  unfold ensureShell
  split
  · rfl
  · rw [lookup_setR, if_neg hk]

theorem enrichVideo_key_mono (cfg : MergeCfg) (existing : Registry)
    (st : Registry × List Video) (v : Video) (k : Str)
    (h : (lookupR st.1 k).isSome = true) :
    (lookupR (enrichVideo cfg existing st v).1 k).isSome = true := by
  unfold enrichVideo
  split
  · exact h
  · split
    · exact h
    · simp only [processExtracted]
      rw [lookup_setR]
      split
      · simp
      · rw [ensureShell_lookup_ne _ _ _ _ (by assumption)]
        exact h

theorem enrichVideo_idkept (cfg : MergeCfg) (existing : Registry)
    (st : Registry × List Video) (v : Video) (k x : Str)
    (h : IdKept st.1 k x) : IdKept (enrichVideo cfg existing st v).1 k x := by
  obtain ⟨r, hr, hx⟩ := h
  unfold enrichVideo
  split
  · exact ⟨r, hr, hx⟩
  · rcases hext : extractRestaurantName cfg.ner cfg.overrides v.caption v.videoId with _ | name
    · simp only [hext]
      exact ⟨r, hr, hx⟩
    · simp only [hext, processExtracted]
      by_cases hk : k = slugify name
      · have hens : ensureShell st.1 v name = (st.1, r) :=
          ensureShell_of_lookup _ _ _ _ (hk ▸ hr)
        refine ⟨addVideoId v.videoId
            (yelpStep cfg name (if truthyStr v.city then v.city else extractCity v.caption)
              (googleStep cfg name (if truthyStr v.city then v.city else extractCity v.caption)
                (ensureShell st.1 v name).2)), ?_, ?_⟩
        · rw [lookup_setR, if_pos hk]
        · rw [hens]
          simp only
          apply addVideoId_mem_mono
          rw [yelpStep_videoIds, googleStep_videoIds]
          exact hx
      · exact ⟨r, by rw [lookup_setR, if_neg hk, ensureShell_lookup_ne _ _ _ _ hk]; exact hr, hx⟩

theorem enrichVideo_rated (cfg : MergeCfg) (existing : Registry)
    (st : Registry × List Video) (v : Video) (k : Str) (r0 : Restaurant)
    (h : RatedKept st.1 k r0) : RatedKept (enrichVideo cfg existing st v).1 k r0 := by
  obtain ⟨r, hr, hG, hY⟩ := h
  unfold enrichVideo
  split
  · exact ⟨r, hr, hG, hY⟩
  · rcases hext : extractRestaurantName cfg.ner cfg.overrides v.caption v.videoId with _ | name
    · simp only [hext]
      exact ⟨r, hr, hG, hY⟩
    · simp only [hext, processExtracted]
      by_cases hk : k = slugify name
      · have hens : ensureShell st.1 v name = (st.1, r) :=
          ensureShell_of_lookup _ _ _ _ (hk ▸ hr)
        refine ⟨addVideoId v.videoId
            (yelpStep cfg name (if truthyStr v.city then v.city else extractCity v.caption)
              (googleStep cfg name (if truthyStr v.city then v.city else extractCity v.caption)
                (ensureShell st.1 v name).2)), ?_, ?_, ?_⟩
        · rw [lookup_setR, if_pos hk]
        · intro g hg h1 h2
          have hrg := hG g hg h1 h2
          rw [hens]
          simp only
          rw [addVideoId_google, yelpStep_google,
            googleStep_skip cfg name _ r g hrg h1 h2]
          exact hrg
        · intro y hy h1 h2
          have hry := hY y hy h1 h2
          rw [hens]
          simp only
          rw [addVideoId_yelp,
            yelpStep_skip cfg name _ _ y (by rw [googleStep_yelp]; exact hry) h1 h2,
            googleStep_yelp]
          exact hry
      · exact ⟨r, by rw [lookup_setR, if_neg hk, ensureShell_lookup_ne _ _ _ _ hk]; exact hr,
          hG, hY⟩

theorem settled_mono (ner : NerOracle) (ov : Str → Option Str) (R R2 : Registry) (w : Video)
    (hkey : ∀ k, (lookupR R k).isSome = true → (lookupR R2 k).isSome = true)
    (hid : ∀ k x, IdKept R k x → IdKept R2 k x)
    (h : Settled ner ov R w) : Settled ner ov R2 w := by
  rcases h with ⟨h1, h2, h3⟩ | h | ⟨name, he, hs, hc, hq, r, hr, hx⟩
  · exact Or.inl ⟨h1, hkey _ h2, h3⟩
  · exact Or.inr (Or.inl h)
  · obtain ⟨r2, hr2, hx2⟩ := hid (slugify name) w.videoId ⟨r, hr, hx⟩
    exact Or.inr (Or.inr ⟨name, he, hs, hc, hq, r2, hr2, hx2⟩)

theorem enrichVideo_new_settled (cfg : MergeCfg) (existing : Registry)
    (st : Registry × List Video) (v : Video)
    (hex : ∀ k, (lookupR existing k).isSome = true → (lookupR st.1 k).isSome = true) :
    ∃ w, (enrichVideo cfg existing st v).2 = st.2 ++ [w] ∧
      Settled cfg.ner cfg.overrides (enrichVideo cfg existing st v).1 w := by
  unfold enrichVideo
  split
  · rename_i hcond
    simp only [Bool.and_eq_true] at hcond
    exact ⟨v, rfl, Or.inl ⟨hcond.1.1, hex _ hcond.1.2, hcond.2⟩⟩
  · rcases hext : extractRestaurantName cfg.ner cfg.overrides v.caption v.videoId with _ | name
    · simp only [hext]
      exact ⟨v, rfl, Or.inr (Or.inl hext)⟩
    · simp only [hext, processExtracted]
      refine ⟨classifiedVideo v name, rfl,
        Or.inr (Or.inr ⟨name, hext, rfl, ?_, ?_, ?_⟩)⟩
      · intro hwc
        simp only [classifiedVideo] at hwc ⊢
        by_cases ht : truthyStr v.city = true
        · rw [if_pos ht] at hwc
          rw [truthyStr, hwc] at ht
          simp at ht
        · rw [if_neg ht] at hwc
          exact hwc
      · intro hwc
        simp only [classifiedVideo] at hwc ⊢
        by_cases ht : truthyStr v.cuisine = true
        · rw [if_pos ht] at hwc
          rw [truthyStr, hwc] at ht
          simp at ht
        · rw [if_neg ht] at hwc
          exact hwc
      · refine ⟨addVideoId v.videoId
            (yelpStep cfg name (if truthyStr v.city then v.city else extractCity v.caption)
              (googleStep cfg name (if truthyStr v.city then v.city else extractCity v.caption)
                (ensureShell st.1 v name).2)), ?_, ?_⟩
        · rw [lookup_setR, if_pos rfl]
        · exact addVideoId_mem_self _ _

theorem classifiedVideo_eq_self (v : Video) (name : Str)
    (hs : v.restaurantSlug = slugify name)
    (hc : v.city = [] → extractCity v.caption = [])
    (hq : v.cuisine = [] → extractCuisine v.caption = []) :
    classifiedVideo v name = v := by
  have h1 : (if truthyStr v.city then v.city else extractCity v.caption) = v.city := by
    by_cases ht : truthyStr v.city = true
    · rw [if_pos ht]
    · rw [if_neg ht]
      have he : v.city = [] := by
        rw [truthyStr] at ht
        simpa using ht
      rw [he, hc he]
  have h2 : (if truthyStr v.cuisine then v.cuisine else extractCuisine v.caption) = v.cuisine := by
    by_cases ht : truthyStr v.cuisine = true
    · rw [if_pos ht]
    · rw [if_neg ht]
      have he : v.cuisine = [] := by
        rw [truthyStr] at ht
        simpa using ht
      rw [he, hq he]
  rw [classifiedVideo, h1, h2, ← hs]

theorem enrichVideo_settled_id (cfg : MergeCfg)
    (hg : cfg.googleSearch = fun _ _ => none) (hy : cfg.yelpSearch = fun _ _ => none)
    (R : Registry) (acc : List Video) (v : Video)
    (h : Settled cfg.ner cfg.overrides R v) :
    enrichVideo cfg R (R, acc) v = (R, acc ++ [v]) := by
  unfold enrichVideo
  split
  · rfl
  · rename_i hcond
    rcases h with ⟨h1, h2, h3⟩ | hn | ⟨name, he, hs, hc, hq, r, hr, hx⟩
    · exfalso
      apply hcond
      simp [h1, h2, h3]
    · rw [hn]
    · rw [he]
      show processExtracted cfg R acc v name = (R, acc ++ [v])
      unfold processExtracted
      rw [ensureShell_of_lookup _ _ _ _ hr]
      simp only
      rw [googleStep_none cfg _ _ _ hg, yelpStep_none cfg _ _ _ hy,
        addVideoId_self_of_mem _ _ hx, setR_self R (slugify name) r hr,
        classifiedVideo_eq_self v name hs hc hq]

theorem foldl_settled_id (cfg : MergeCfg)
    (hg : cfg.googleSearch = fun _ _ => none) (hy : cfg.yelpSearch = fun _ _ => none) :
    ∀ (vs : List Video) (R : Registry) (acc : List Video),
      (∀ v ∈ vs, Settled cfg.ner cfg.overrides R v) →
      vs.foldl (enrichVideo cfg R) (R, acc) = (R, acc ++ vs) := by
  intro vs
  induction vs with
  | nil => intro R acc _; simp
  | cons v t ih =>
    intro R acc h
    rw [List.foldl_cons, enrichVideo_settled_id cfg hg hy R acc v (h v (List.mem_cons_self _ _)),
      ih R (acc ++ [v]) (fun w hw => h w (List.mem_cons_of_mem _ hw))]
    simp

theorem foldl_settles (cfg : MergeCfg) (existing : Registry) :
    ∀ (vs : List Video) (st : Registry × List Video),
      (∀ w ∈ st.2, Settled cfg.ner cfg.overrides st.1 w) →
      (∀ k, (lookupR existing k).isSome = true → (lookupR st.1 k).isSome = true) →
      ∀ w ∈ (vs.foldl (enrichVideo cfg existing) st).2,
        Settled cfg.ner cfg.overrides (vs.foldl (enrichVideo cfg existing) st).1 w := by
  intro vs
  induction vs with
  | nil => intro st h _ w hw; exact h w hw
  | cons v t ih =>
    intro st h hex
    rw [List.foldl_cons]
    obtain ⟨wnew, hw2, hwst⟩ := enrichVideo_new_settled cfg existing st v hex
    apply ih (enrichVideo cfg existing st v)
    · intro w hw
      rw [hw2] at hw
      rcases List.mem_append.mp hw with hw | hw
      · exact settled_mono _ _ st.1 _ w
          (fun k hk => enrichVideo_key_mono cfg existing st v k hk)
          (fun k x hk => enrichVideo_idkept cfg existing st v k x hk)
          (h w hw)
      · rw [List.mem_singleton] at hw
        subst hw
        exact hwst
    · intro k hk
      exact enrichVideo_key_mono cfg existing st v k (hex k hk)

/-- Claim C2: the merge engine is idempotent.  Re-running it on the output
of a first run, with both rating providers returning no result, reproduces
the first run's video list and restaurant registry exactly, for every NER
oracle, override table, item list and registry (and any providers in the
first run). -/
theorem claim2_merge_idempotent (ner : NerOracle) (ov : Str → Option Str)
    (gS : Str → Str → Option GoogleResult) (yS : Str → Str → Option YelpResult)
    (videos : List Video) (R0 : Registry) :
    runMerge (noProviders ⟨ner, ov, gS, yS⟩)
        (runMerge ⟨ner, ov, gS, yS⟩ videos R0).1 (runMerge ⟨ner, ov, gS, yS⟩ videos R0).2 =
      runMerge ⟨ner, ov, gS, yS⟩ videos R0 := by
  have hset : ∀ w ∈ (videos.foldl (enrichVideo ⟨ner, ov, gS, yS⟩ R0) (R0, [])).2,
      Settled ner ov (videos.foldl (enrichVideo ⟨ner, ov, gS, yS⟩ R0) (R0, [])).1 w :=
    foldl_settles ⟨ner, ov, gS, yS⟩ R0 videos (R0, [])
      (by intro w hw; simp at hw) (fun k hk => hk)
  show runMerge (noProviders ⟨ner, ov, gS, yS⟩)
      (videos.foldl (enrichVideo ⟨ner, ov, gS, yS⟩ R0) (R0, [])).2
      (videos.foldl (enrichVideo ⟨ner, ov, gS, yS⟩ R0) (R0, [])).1 = _
  unfold runMerge
  rw [foldl_settled_id (noProviders ⟨ner, ov, gS, yS⟩) rfl rfl _ _ _ hset]
  simp

theorem foldl_rated (cfg : MergeCfg) (existing : Registry) :
    ∀ (vs : List Video) (st : Registry × List Video) (k : Str) (r0 : Restaurant),
      RatedKept st.1 k r0 → RatedKept (vs.foldl (enrichVideo cfg existing) st).1 k r0 := by
  intro vs
  induction vs with
  | nil => intro st k r0 h; exact h
  | cons v t ih =>
    intro st k r0 h
    rw [List.foldl_cons]
    exact ih _ k r0 (enrichVideo_rated cfg existing st v k r0 h)

/-- Claim C1 as amended: a provider rating record of a registry entry is
preserved by a run of the merge engine whenever its rating is non-zero and
its identifying field (placeId for Google, url for Yelp) is present and
non-empty; eligibility for update requires a zero rating or a falsy
identifying field. -/
theorem claim1_no_clobber (cfg : MergeCfg) (videos : List Video) (R0 : Registry)
    (k : Str) (r0 : Restaurant) (hk : lookupR R0 k = some r0) :
    ∃ r, lookupR (runMerge cfg videos R0).2 k = some r ∧
      (∀ g, r0.google = some g → ¬ g.rating = 0 → truthyOptStr g.placeId = true →
        r.google = some g) ∧
      (∀ y, r0.yelp = some y → ¬ y.rating = 0 → truthyOptStr y.url = true →
        r.yelp = some y) :=
  foldl_rated cfg R0 videos (R0, []) k r0
    ⟨r0, hk, fun _ hg _ _ => hg, fun _ hy _ _ => hy⟩

/-- Counterexample to claim C1 as stated: a registry entry whose Google
rating is 4 (non-zero) but whose placeId is absent is re-enriched, and a
provider returning a different result overwrites the rating with 1. -/
theorem claim1_clobber_counterexample :
    lookupR [(str "tatiana", ratedNoId)] (str "tatiana") = some ratedNoId ∧
      ratedNoId.google.map (fun g => g.rating) = some 4 ∧
      ((lookupR (runMerge cfgClobber [clobberVideo] [(str "tatiana", ratedNoId)]).2
          (str "tatiana")).map (fun r => r.google.map (fun g => g.rating))) =
        some (some 1) := by
  exact ⟨by decide, by decide, by decide⟩

/-- Witness for claim C1: with both rating records populated and their
identifying fields present, the same mocked provider run leaves them
untouched. -/
theorem claim1_no_clobber_witness :
    ∃ r, lookupR (runMerge cfgClobber [clobberVideo] [(str "tatiana", ratedFull)]).2
        (str "tatiana") = some r ∧
      r.google = some { rating := 4, reviewCount := 10, placeId := some (str "p") } ∧
      r.yelp = some { rating := 3, reviewCount := 5, url := some (str "u") } := by
  obtain ⟨r, h1, h2, h3⟩ := claim1_no_clobber cfgClobber [clobberVideo]
    [(str "tatiana", ratedFull)] (str "tatiana") ratedFull (by decide)
  exact ⟨r, h1,
    h2 { rating := 4, reviewCount := 10, placeId := some (str "p") }
      (by decide) (by decide) (by decide),
    h3 { rating := 3, reviewCount := 5, url := some (str "u") }
      (by decide) (by decide) (by decide)⟩

theorem enrichVideo_new_slugok (cfg : MergeCfg) (existing : Registry)
    (st : Registry × List Video) (v : Video)
    (hin : truthyStr v.restaurantSlug = true →
      (lookupR existing v.restaurantSlug).isSome = true)
    (hex : ∀ k, (lookupR existing k).isSome = true → (lookupR st.1 k).isSome = true) :
    ∃ w, (enrichVideo cfg existing st v).2 = st.2 ++ [w] ∧
      (truthyStr w.restaurantSlug = true →
        (lookupR (enrichVideo cfg existing st v).1 w.restaurantSlug).isSome = true) := by
  unfold enrichVideo
  split
  · rename_i hcond
    simp only [Bool.and_eq_true] at hcond
    exact ⟨v, rfl, fun _ => hex _ hcond.1.2⟩
  · rcases hext : extractRestaurantName cfg.ner cfg.overrides v.caption v.videoId with _ | name
    · simp only [hext]
      exact ⟨v, rfl, fun ht => hex _ (hin ht)⟩
    · simp only [hext, processExtracted]
      refine ⟨classifiedVideo v name, rfl, fun _ => ?_⟩
      have hslug : (classifiedVideo v name).restaurantSlug = slugify name := rfl
      rw [hslug, lookup_setR, if_pos rfl]
      rfl

theorem foldl_no_orphans (cfg : MergeCfg) (existing : Registry) :
    ∀ (vs : List Video) (st : Registry × List Video),
      (∀ w ∈ st.2, truthyStr w.restaurantSlug = true →
        (lookupR st.1 w.restaurantSlug).isSome = true) →
      (∀ v ∈ vs, truthyStr v.restaurantSlug = true →
        (lookupR existing v.restaurantSlug).isSome = true) →
      (∀ k, (lookupR existing k).isSome = true → (lookupR st.1 k).isSome = true) →
      ∀ w ∈ (vs.foldl (enrichVideo cfg existing) st).2,
        truthyStr w.restaurantSlug = true →
        (lookupR (vs.foldl (enrichVideo cfg existing) st).1 w.restaurantSlug).isSome = true := by
  intro vs
  induction vs with
  | nil => intro st h _ _ w hw; exact h w hw
  | cons v t ih =>
    intro st h hin hex
    rw [List.foldl_cons]
    obtain ⟨wnew, hw2, hwok⟩ := enrichVideo_new_slugok cfg existing st v
      (hin v (List.mem_cons_self _ _)) hex
    apply ih (enrichVideo cfg existing st v)
    · intro w hw ht
      rw [hw2] at hw
      rcases List.mem_append.mp hw with hw | hw
      · exact enrichVideo_key_mono cfg existing st v _ (h w hw ht)
      · rw [List.mem_singleton] at hw
        subst hw
        exact hwok ht
    · exact fun u hu => hin u (List.mem_cons_of_mem _ hu)
    · exact fun k hk => enrichVideo_key_mono cfg existing st v k (hex k hk)

/-- Claim C3 as amended: a run of the merge engine preserves the no-orphan
invariant.  If every input item whose restaurant key is non-empty refers to
a key of the input registry, then after the run every output item whose
restaurant key is non-empty refers to a key of the output registry. -/
theorem claim3_no_orphans (cfg : MergeCfg) (videos : List Video) (R0 : Registry)
    (h : ∀ v ∈ videos, truthyStr v.restaurantSlug = true →
      (lookupR R0 v.restaurantSlug).isSome = true) :
    ∀ w ∈ (runMerge cfg videos R0).1, truthyStr w.restaurantSlug = true →
      (lookupR (runMerge cfg videos R0).2 w.restaurantSlug).isSome = true := by
  intro w hw ht
  exact foldl_no_orphans cfg R0 videos (R0, [])
    (by intro u hu; simp at hu) h (fun k hk => hk) w hw ht

/-- Counterexample to claim C3 as stated: an input item carrying the
dangling key `ghost` and a caption from which no name can be extracted is
passed through unchanged, so the output still contains an item whose
non-empty key is not in the output registry. -/
theorem claim3_orphan_counterexample :
    (runMerge cfgIdle [ghostVideo] []).1 = [ghostVideo] ∧
      truthyStr ghostVideo.restaurantSlug = true ∧
      (lookupR (runMerge cfgIdle [ghostVideo] []).2 ghostVideo.restaurantSlug).isSome =
        false := by
  exact ⟨by decide, by decide, by decide⟩

/-- Witness for claim C3: with the ghost key present in the input registry,
the output registry still resolves it. -/
theorem claim3_no_orphans_witness :
    (lookupR (runMerge cfgIdle [ghostVideo] [(str "ghost", ratedNoId)]).2
      ghostVideo.restaurantSlug).isSome = true :=
  claim3_no_orphans cfgIdle [ghostVideo] [(str "ghost", ratedNoId)]
    (by decide) ghostVideo (by decide) (by decide)

end OneMin
